import Mathlib

/-!
# Verification of the opnsense-filterlog core against its specification

This file gives a shallow embedding, in Lean 4, of the core of the
`opnsense-filterlog` repository: the streaming log-record parser and
line-offset index (`internal/stream/stream.go`) and the filter-expression
compiler and evaluator (`internal/filter/filter.go`), together with proofs
of the behavioural claims made by the natural-language specification.

Modelling conventions:

* A log file is modelled as a `List String` of physical lines (the tokens
  produced by `bufio.Scanner`, i.e. without their terminating newline).
  Byte offsets are modelled as in the Go code: each consumed line advances
  the offset by `len(scanner.Bytes()) + 1`.
* Machine integers (`uint8`, `uint16`) are modelled as `Nat` with explicit
  bounds checks where the Go code performs them (`strconv.ParseUint` with
  bit sizes 8 and 16).
* `time.Parse(time.RFC3339, s)` is a Go standard-library call; it is
  modelled at that boundary by the validator `rfc3339Valid`, and
  `LogEntry.time` stores the raw timestamp text that validated.  (The
  repository's current TUI revision renders `entry.Time` as a string and
  the current any-field filter searches it as a string.)
* `fmt.Sprintf("%d", i)` on an unsigned integer is modelled by `Nat.repr`.
* Go string functions used by the repository (`strings.IndexByte`,
  `strings.Index`, `strings.ToLower`, `strings.Contains`,
  `strings.HasPrefix`, `strings.TrimSpace`) are implemented over the
  character list `String.data`, restricted to what the code relies on.

The repository history contains two revisions of the filter evaluator.
Both are embedded below: `Matches` follows the current revision (the one
styled with `error(filter):` messages, a `fieldTyp` enumeration and a
`searchFields` slice), while `fieldFilterMatchesA` / `anyFilterMatchesA`
follow the earlier revision that switches on the raw field keyword.  The
two differ on exactly two points that the proofs below make explicit: the
earlier revision refuses to match a port equal to 0 and does not search
the timestamp in an any-field match.
-/

/-! ## String primitives -/

/-- Decimal digit value of a character. -/
def digitVal (c : Char) : Nat := c.toNat - '0'.toNat

/-- ASCII-centred lowering of a character list; models `strings.ToLower`
on the inputs the program manipulates. -/
def toLowerL (cs : List Char) : List Char := cs.map Char.toLower

/-- Prefix test: `startsWith hay pat` is true when `pat` is a prefix of `hay`;
models `strings.HasPrefix hay pat`. -/
def startsWith : List Char → List Char → Bool
  | _, [] => true
  | [], _ :: _ => false
  | a :: as, b :: bs => a == b && startsWith as bs

/-- Substring test: `containsSub hay pat` is true when `pat` occurs inside `hay`;
models `strings.Contains hay pat`. -/
def containsSub : List Char → List Char → Bool
  | [], pat => pat.isEmpty
  | a :: rest, pat => startsWith (a :: rest) pat || containsSub rest pat

/-- Case-insensitive substring test used by the any-field filter:
`strings.Contains(strings.ToLower field, strings.ToLower value)`. -/
def containsCI (field value : String) : Bool :=
  containsSub (toLowerL field.data) (toLowerL value.data)

/-- Case-insensitive prefix test used by the string-field filters:
`strings.HasPrefix(strings.ToLower field, strings.ToLower value)`. -/
def hasPrefixCI (field value : String) : Bool :=
  startsWith (toLowerL field.data) (toLowerL value.data)

/-- Split at the first occurrence of character `c`, returning the parts
before and after it; models `strings.IndexByte` plus the slicing the
parser performs around the found position. -/
def splitFirst : List Char → Char → Option (List Char × List Char)
  | [], _ => none
  | a :: rest, c =>
    if a == c then some ([], rest)
    else (splitFirst rest c).map (fun p => (a :: p.1, p.2))

/-- The remainder of `cs` after the first occurrence of `pat`; models
`strings.Index(line, pat)` followed by slicing past the pattern. -/
def afterSub : List Char → List Char → Option (List Char)
  | [], pat => if pat.isEmpty then some [] else none
  | c :: rest, pat =>
    if startsWith (c :: rest) pat then some (List.drop pat.length (c :: rest))
    else afterSub rest pat

/-- Comma split of a CSV payload.  `splitComma [] = [[]]`, matching Go's
behaviour where the empty string has one (empty) field. -/
def splitComma : List Char → List (List Char)
  | [] => [[]]
  | ',' :: rest => [] :: splitComma rest
  | c :: rest =>
    match splitComma rest with
    | [] => [[c]]
    | f :: fs => (c :: f) :: fs

/-- Field extraction: `extractCSVField csv field` returns the `field`-th comma-separated
field of `csv` when it exists — the `stream.extractCSVField` helper. -/
def extractCSVField (csv : List Char) (field : Nat) : Option (List Char) :=
  (splitComma csv)[field]?

/-- Model of `strconv.ParseUint(s, 10, bits)`: decimal digits only, non-empty,
value strictly below `2 ^ bits`. -/
def parseUintBits (cs : List Char) (bits : Nat) : Option Nat :=
  if cs.isEmpty then none
  else if cs.all Char.isDigit then
    let v := cs.foldl (fun a c => a * 10 + digitVal c) 0
    if v < 2 ^ bits then some v else none
  else none

/-! ## RFC 3339 timestamp validation (model of `time.Parse(time.RFC3339, s)`) -/

/-- Read two decimal digits. -/
def twoDigits : List Char → Option (Nat × List Char)
  | a :: b :: rest =>
    if a.isDigit && b.isDigit then some (digitVal a * 10 + digitVal b, rest) else none
  | _ => none

/-- Read four decimal digits. -/
def fourDigits : List Char → Option (Nat × List Char)
  | a :: b :: c :: d :: rest =>
    if a.isDigit && b.isDigit && c.isDigit && d.isDigit then
      some (((digitVal a * 10 + digitVal b) * 10 + digitVal c) * 10 + digitVal d, rest)
    else none
  | _ => none

def isLeapYear (y : Nat) : Bool :=
  (y % 4 == 0 && y % 100 != 0) || y % 400 == 0

def daysInMonth (y m : Nat) : Nat :=
  if m == 2 then (if isLeapYear y then 29 else 28)
  else if m == 4 || m == 6 || m == 9 || m == 11 then 30
  else 31

/-- Consume an optional fractional-seconds part `.d+`. -/
def parseFrac : List Char → Option (List Char)
  | '.' :: c :: rest => if c.isDigit then some (List.dropWhile Char.isDigit rest) else none
  | '.' :: [] => none
  | cs => some cs

/-- Validate a numeric or `Z` timezone suffix closing the timestamp. -/
def tzValid : List Char → Bool
  | ['Z'] => true
  | c :: rest =>
    (c == '+' || c == '-') &&
      (match twoDigits rest with
       | some (hh, ':' :: rest2) =>
         decide (hh ≤ 23) &&
           (match twoDigits rest2 with
            | some (mm, []) => decide (mm ≤ 59)
            | _ => false)
       | _ => false)
  | [] => false

/-- Model of Go's `time.Parse(time.RFC3339, s)` succeeding: layout
`YYYY-MM-DDTHH:MM:SS[.d+](Z|±hh:mm)` with calendar range checks. -/
def rfc3339Valid (s : String) : Bool :=
  match fourDigits s.data with
  | none => false
  | some (y, r0) =>
    match r0 with
    | '-' :: r1 =>
      match twoDigits r1 with
      | none => false
      | some (m, r2) =>
        match r2 with
        | '-' :: r3 =>
          match twoDigits r3 with
          | none => false
          | some (d, r4) =>
            match r4 with
            | 'T' :: r5 =>
              match twoDigits r5 with
              | none => false
              | some (hh, r6) =>
                match r6 with
                | ':' :: r7 =>
                  match twoDigits r7 with
                  | none => false
                  | some (mi, r8) =>
                    match r8 with
                    | ':' :: r9 =>
                      match twoDigits r9 with
                      | none => false
                      | some (ss, r10) =>
                        match parseFrac r10 with
                        | none => false
                        | some r11 =>
                          decide (1 ≤ m ∧ m ≤ 12 ∧ 1 ≤ d ∧ d ≤ daysInMonth y m ∧
                            hh ≤ 23 ∧ mi ≤ 59 ∧ ss ≤ 59) && tzValid r11
                    | _ => false
                | _ => false
            | _ => false
        | _ => false
    | _ => false

/-! ## The record type (`stream.LogEntry`) -/

/-- One successfully parsed log line (`stream.LogEntry`).  `time` holds
the raw RFC 3339 text that validated, modelling the parsed instant at the
`time.Parse` boundary. -/
structure LogEntry where
  action : String
  direction : String
  interface : String
  label : String
  reason : String
  time : String
  dst : String
  ipVersion : Nat
  protoName : String
  src : String
  dstPort : Nat
  srcPort : Nat
  deriving DecidableEq, Repr

/-! ## Canonicalisation switches of `parseLine`

Each `switch` in the Go parser maps a recognised raw token to a named
constant whose value is the same string (`case "match": entry.Reason =
reasonMatch` with `reasonMatch = "match"`, and so on); unrecognised
values pass through.  The switches are reproduced verbatim. -/

def canonReason (s : String) : String :=
  match s with
  | "match" => "match"
  | "bad-offset" => "bad-offset"
  | "fragment" => "fragment"
  | "short" => "short"
  | "normalize" => "normalize"
  | "memory" => "memory"
  | "bad-timestamp" => "bad-timestamp"
  | "congestion" => "congestion"
  | "ip-option" => "ip-option"
  | "proto-cksum" => "proto-cksum"
  | "state-mismatch" => "state-mismatch"
  | "state-insert" => "state-insert"
  | "state-limit" => "state-limit"
  | "src-limit" => "src-limit"
  | "synproxy" => "synproxy"
  | _ => s

def canonAction (s : String) : String :=
  match s with
  | "pass" => "pass"
  | "block" => "block"
  | "scrub" => "scrub"
  | "nat" => "nat"
  | "binat" => "binat"
  | "rdr" => "rdr"
  | "synproxy-drop" => "synproxy-drop"
  | _ => s

def canonDirection (s : String) : String :=
  match s with
  | "in" => "in"
  | "out" => "out"
  | "in/out" => "in/out"
  | _ => s

def canonProtoV4 (s : String) : String :=
  match s with
  | "tcp" => "tcp"
  | "udp" => "udp"
  | "icmp" => "icmp"
  | _ => s

def canonProtoV6 (s : String) : String :=
  match s with
  | "tcp" => "tcp"
  | "udp" => "udp"
  | "ipv6-icmp" => "ipv6-icmp"
  | _ => s

/-! ## The line parser (`stream.parseLine`)

`parseLineE` is `parseLine` with the line number abstracted away: the Go
function threads `lineNum` only into the text of the diagnostic it emits,
never into the parsing decisions, so the parse is computed here once and
the full `parseLine` pair (record, diagnostic message) is recovered below
by `parseLine` from the error tag and the line number.  Error tags follow
the `addError` call sites of the source. -/

/-- Parse the IPv4 tail of a record: fields 16 (protocol name), 18
(source), 19 (destination), and for tcp/udp the ports at 20/21. -/
def parseV4 (csv : List Char) (base : LogEntry) : Except String LogEntry :=
  match extractCSVField csv 16 with
  | none => .error "v4/protoName"
  | some pn =>
    match extractCSVField csv 18 with
    | none => .error "v4/src"
    | some src =>
      match extractCSVField csv 19 with
      | none => .error "v4/dst"
      | some dst =>
        let proto := canonProtoV4 ⟨pn⟩
        let base := { base with src := ⟨src⟩, dst := ⟨dst⟩, protoName := proto }
        match proto with
        | "udp" =>
          match extractCSVField csv 20 with
          | none => .error "udp4/srcPortStr"
          | some sp =>
            match parseUintBits sp 16 with
            | none => .error "udp4/srcPort"
            | some spv =>
              match extractCSVField csv 21 with
              | none => .error "udp4/dstPortStr"
              | some dp =>
                match parseUintBits dp 16 with
                | none => .error "udp4/dstPort"
                | some dpv => .ok { base with srcPort := spv, dstPort := dpv }
        | "tcp" =>
          match extractCSVField csv 20 with
          | none => .error "tcp4/srcPortStr"
          | some sp =>
            match parseUintBits sp 16 with
            | none => .error "tcp4/srcPort"
            | some spv =>
              match extractCSVField csv 21 with
              | none => .error "tcp4/dstPortStr"
              | some dp =>
                match parseUintBits dp 16 with
                | none => .error "tcp4/dstPort"
                | some dpv => .ok { base with srcPort := spv, dstPort := dpv }
        | _ => .ok base

/-- Parse the IPv6 tail of a record: fields 12 (protocol name), 15
(source), 16 (destination), and for tcp/udp the ports at 17/18. -/
def parseV6 (csv : List Char) (base : LogEntry) : Except String LogEntry :=
  match extractCSVField csv 12 with
  | none => .error "v6/protoName"
  | some pn =>
    match extractCSVField csv 15 with
    | none => .error "v6/src"
    | some src =>
      match extractCSVField csv 16 with
      | none => .error "v6/dst"
      | some dst =>
        let proto := canonProtoV6 ⟨pn⟩
        let base := { base with src := ⟨src⟩, dst := ⟨dst⟩, protoName := proto }
        match proto with
        | "udp" =>
          match extractCSVField csv 17 with
          | none => .error "udp6/srcPortStr"
          | some sp =>
            match parseUintBits sp 16 with
            | none => .error "udp6/srcPort"
            | some spv =>
              match extractCSVField csv 18 with
              | none => .error "udp6/dstPortStr"
              | some dp =>
                match parseUintBits dp 16 with
                | none => .error "udp6/dstPort"
                | some dpv => .ok { base with srcPort := spv, dstPort := dpv }
        | "tcp" =>
          match extractCSVField csv 17 with
          | none => .error "tcp6/srcPortStr"
          | some sp =>
            match parseUintBits sp 16 with
            | none => .error "tcp6/srcPort"
            | some spv =>
              match extractCSVField csv 18 with
              | none => .error "tcp6/dstPortStr"
              | some dp =>
                match parseUintBits dp 16 with
                | none => .error "tcp6/dstPort"
                | some dpv => .ok { base with srcPort := spv, dstPort := dpv }
        | _ => .ok base

/-- The parser `stream.parseLine` minus the line number: either the parsed record or
the tag of the diagnostic it reports.  The timestamp sits between the
first and second space of the line; the CSV payload follows the first
occurrence of the two-character delimiter. -/
def parseLineE (line : String) : Except String LogEntry :=
  match splitFirst line.data ' ' with
  | none => .error "timestamp"
  | some (_, afterFirst) =>
    match splitFirst afterFirst ' ' with
    | none => .error "timestamp"
    | some (ts, _) =>
      if !rfc3339Valid ⟨ts⟩ then .error "timestamp" else
      match afterSub line.data (']' :: ' ' :: []) with
      | none => .error "csv"
      | some csvChars =>
        let csv := csvChars
        match extractCSVField csv 3 with
        | none => .error "label"
        | some label =>
          match extractCSVField csv 4 with
          | none => .error "iface"
          | some iface =>
            match extractCSVField csv 5 with
            | none => .error "reason"
            | some reason =>
              match extractCSVField csv 6 with
              | none => .error "action"
              | some action =>
                match extractCSVField csv 7 with
                | none => .error "direction"
                | some direction =>
                  match extractCSVField csv 8 with
                  | none => .error "ipVersionStr"
                  | some ipvStr =>
                    match parseUintBits ipvStr 8 with
                    | none => .error "ipVersion"
                    | some ipv =>
                      let base : LogEntry :=
                        { action := canonAction ⟨action⟩
                          direction := canonDirection ⟨direction⟩
                          interface := ⟨iface⟩
                          label := ⟨label⟩
                          reason := canonReason ⟨reason⟩
                          time := ⟨ts⟩
                          dst := ""
                          ipVersion := ipv
                          protoName := ""
                          src := ""
                          dstPort := 0
                          srcPort := 0 }
                      if ipv == 4 then parseV4 csv base
                      else if ipv == 6 then parseV6 csv base
                      else .error "IPVersion"

/-- The diagnostic text reported for error tag `t` on line `n`; models
the `addError(fmt.Sprintf("invalid ... on line %d", ...))` call sites
(the wrapped `error` detail of the timestamp case is not modelled). -/
def diagMsg (t : String) (n : Nat) : String :=
  "invalid " ++ t ++ " on line " ++ Nat.repr n

/-- Full `stream.parseLine line lineNum`: the parsed record, or `none`
together with the diagnostic message that `addError` receives. -/
def parseLine (line : String) (lineNum : Nat) : Option LogEntry × Option String :=
  match parseLineE line with
  | .ok e => (some e, none)
  | .error t => (none, some (diagMsg t lineNum))

/-- The record component of a parse, used by indexing and iteration. -/
def parseEntry (line : String) : Option LogEntry :=
  (parseLineE line).toOption

/-! ## The stream (`stream.Stream`)

A file is a `List String` of physical lines.  The scan cursor is the
suffix of lines not yet consumed; a fresh stream's cursor is the whole
list. -/

/-- Bytes consumed by one physical line: `len(scanner.Bytes()) + 1`
(the trailing newline). -/
def lineSize (l : String) : Nat := l.utf8ByteSize + 1

/-- One entry of the line index (`stream.fileOffset`): the ordinal among
valid records and the byte offset of the start of its physical line. -/
structure IndexEntry where
  line : Nat
  offset : Nat
  deriving DecidableEq, Repr

/-- The cap on stored diagnostics (`stream.MaxErrorsInMemory`). -/
def MaxErrorsInMemory : Nat := 1000

/-- Diagnostic recording `stream.addError`: append a diagnostic unless the cap is reached. -/
def addError (errors : List String) (msg : String) : List String :=
  if errors.length < MaxErrorsInMemory then errors ++ [msg] else errors

/-- The loop body of `stream.BuildIndex`, recursing over the remaining
lines with the running byte offset and count of valid lines.  A valid
line contributes the entry `(validLines, offset)`; every line advances
the offset by its size.  (The physical line number threaded by the Go
loop feeds only diagnostic texts and is dropped here; diagnostics of a
scan are modelled by `scanMsgs` below.) -/
def buildIndexFrom : List String → Nat → Nat → List IndexEntry
  | [], _, _ => []
  | l :: ls, offset, valid =>
    match parseEntry l with
    | some _ => ⟨valid, offset⟩ :: buildIndexFrom ls (offset + lineSize l) (valid + 1)
    | none => buildIndexFrom ls (offset + lineSize l) valid

/-- Index build `stream.BuildIndex` on a file: the index built by a full forward
scan from offset 0. -/
def buildIndex (lines : List String) : List IndexEntry :=
  buildIndexFrom lines 0 0

/-- Count query `stream.TotalLines` as a function of the stream's fields: `-1`
without an index (`hasIndex` is `len(index) > 0`), else the stored
count of valid lines.  A fresh stream has `index = nil` and
`validLines = 0`; after `BuildIndex` on `lines` the fields are
`buildIndex lines` and `(buildIndex lines).length`. -/
def TotalLines (index : List IndexEntry) (validLines : Nat) : Int :=
  if 0 < index.length then (validLines : Int) else -1

/-- Sequential read `stream.Next` on the cursor: scan forward past invalid lines until a
record parses, returning it with the advanced cursor, or `none` at end
of file. -/
def next : List String → Option (LogEntry × List String)
  | [] => none
  | l :: ls =>
    match parseEntry l with
    | some e => some (e, ls)
    | none => next ls

/-- The records produced by repeatedly calling `next` from the given
cursor until end of file. -/
def nextAll : List String → List LogEntry
  | [] => []
  | l :: ls =>
    match parseEntry l with
    | some e => e :: nextAll ls
    | none => nextAll ls

/-- The diagnostics a full scan generates, in order, starting the line
numbering at `n` (the index build numbers from 0; `Next` numbers from 1).
This is the sequence of messages handed to `addError`, before the cap. -/
def scanMsgs : List String → Nat → List String
  | [], _ => []
  | l :: ls, n =>
    match parseLineE l with
    | .ok _ => scanMsgs ls (n + 1)
    | .error t => diagMsg t n :: scanMsgs ls (n + 1)

/-- Reposition a cursor at byte offset `o`: drop whole lines while the
offset is ahead of the cursor.  Returns `none` when `o` is not a line
boundary of the file (the Go code never stores such an offset in the
index, as proved below). -/
def dropAtOffset : List String → Nat → Option (List String)
  | ls, 0 => some ls
  | [], _ + 1 => none
  | l :: ls, n + 1 =>
    if lineSize l ≤ n + 1 then dropAtOffset ls (n + 1 - lineSize l) else none

/-- Random access `stream.SeekToLine` on a file: requires a non-empty index and
`0 ≤ n < len(index)` (the lower bound is implicit in `Nat`), then
repositions the cursor at the byte offset stored for ordinal `n`. -/
def seekToLine (lines : List String) (n : Nat) : Option (List String) :=
  let index := buildIndex lines
  if index.length = 0 then none
  else if index.length ≤ n then none
  else
    match index[n]? with
    | some entry => dropAtOffset lines entry.offset
    | none => none


/-! ## The filter compiler (`internal/filter`)

Lexer, recursive-descent parser and evaluator.  The lexer state is the
not-yet-consumed suffix of the trimmed input's characters; the parser
state is the current token plus that suffix.  The mutually recursive
parser functions are given a fuel argument to witness termination; the
fuel strictly exceeds the recursion depth the Go parser can reach on the
same input, so it is never exhausted on the inputs considered here. -/

inductive TokenTyp where
  | and | eof | field | not | or | parenL | parenR | value
  deriving DecidableEq, Repr

/-- A lexical token (`filter.token`). -/
structure Token where
  typ : TokenTyp
  value : String
  deriving DecidableEq, Repr

/-- The recognised field keywords and their aliases (`filter.fields`). -/
inductive FieldTyp where
  | action | destination | direction | dstPort | ipVersion | interface
  | port | protocol | reason | source | srcPort
  deriving DecidableEq, Repr

/-- Operator keywords (`filter.tokens`). -/
def opTokens (w : String) : Option TokenTyp :=
  if w == "and" || w == "&&" then some .and
  else if w == "not" || w == "!" then some .not
  else if w == "or" || w == "||" then some .or
  else none

/-- Field-keyword alias table (`filter.fields`). -/
def fieldsMap (w : String) : Option FieldTyp :=
  if w == "action" then some .action
  else if w == "direction" || w == "dir" then some .direction
  else if w == "destination" || w == "dest" || w == "dst" then some .destination
  else if w == "dstport" || w == "dport" then some .dstPort
  else if w == "ipversion" || w == "ip" || w == "ipver" then some .ipVersion
  else if w == "interface" || w == "iface" then some .interface
  else if w == "port" then some .port
  else if w == "protocol" || w == "proto" then some .protocol
  else if w == "reason" then some .reason
  else if w == "source" || w == "src" then some .source
  else if w == "srcport" || w == "sport" then some .srcPort
  else none

/-- Model of `strings.TrimSpace`, applied by `newLexer` to the raw expression. -/
def trimSpace (cs : List Char) : List Char :=
  ((cs.dropWhile Char.isWhitespace).reverse.dropWhile Char.isWhitespace).reverse

/-- Word delimiters of the lexer: space and parentheses. -/
def isWordDelim (c : Char) : Bool := c == ' ' || c == '(' || c == ')'

/-- Word reader `lexer.readWord`: the maximal delimiter-free prefix, with the rest. -/
def readWord : List Char → List Char × List Char
  | [] => ([], [])
  | c :: rest =>
    if isWordDelim c then ([], c :: rest)
    else
      match readWord rest with
      | (w, r) => (c :: w, r)

/-- Tokeniser `lexer.nextToken`: skip spaces, emit a parenthesis or classify the
next word as operator, field keyword (lower-cased) or bare value
(original spelling). -/
def nextToken (cs : List Char) : Token × List Char :=
  let cs := cs.dropWhile (· == ' ')
  match cs with
  | [] => (⟨.eof, ""⟩, [])
  | c :: rest =>
    if c == '(' then (⟨.parenL, "("⟩, rest)
    else if c == ')' then (⟨.parenR, ")"⟩, rest)
    else
      match readWord (c :: rest) with
      | (w, r) =>
        if w.isEmpty then (⟨.eof, ""⟩, r)
        else
          let word : String := ⟨w⟩
          let wordLower : String := ⟨toLowerL w⟩
          match opTokens wordLower with
          | some t => (⟨t, wordLower⟩, r)
          | none =>
            match fieldsMap wordLower with
            | some _ => (⟨.field, wordLower⟩, r)
            | none => (⟨.value, word⟩, r)

/-- The immutable filter AST (`filter.FilterNode` and its variants). -/
inductive FilterNode where
  | anyF (value : String)
  | fieldF (field : FieldTyp) (value : String)
  | andF (left right : FilterNode)
  | orF (left right : FilterNode)
  | notF (child : FilterNode)
  deriving DecidableEq, Repr

/-- Helper `matchStr` of the current `fieldFilter.Matches`: case-insensitive
prefix comparison. -/
def matchStr (s value : String) : Bool := hasPrefixCI s value

/-- Helper `matchInt` of the current `fieldFilter.Matches`: exact equality with
the decimal rendering, no emptiness or zero guard. -/
def matchInt (i : Nat) (value : String) : Bool := Nat.repr i == value

/-- The slice searched by the current `anyFilter.Matches`, in source
order: action, direction, interface, reason, time, destination,
protocol name, source. -/
def searchFields (e : LogEntry) : List String :=
  [e.action, e.direction, e.interface, e.reason, e.time, e.dst, e.protoName, e.src]

/-- The field dispatch of the current `fieldFilter.Matches`. -/
def fieldMatches (f : FieldTyp) (value : String) (e : LogEntry) : Bool :=
  match f with
  | .action => matchStr e.action value
  | .destination => matchStr e.dst value
  | .direction => matchStr e.direction value
  | .dstPort => matchInt e.dstPort value
  | .ipVersion => matchInt e.ipVersion value
  | .interface => matchStr e.interface value
  | .port => matchInt e.srcPort value || matchInt e.dstPort value
  | .protocol => matchStr e.protoName value
  | .reason => matchStr e.reason value
  | .source => matchStr e.src value
  | .srcPort => matchInt e.srcPort value

/-- Evaluator `FilterNode.Matches` of the current filter revision. -/
def Matches : FilterNode → LogEntry → Bool
  | .anyF v, e => (searchFields e).any (fun f => containsCI f v)
  | .fieldF f v, e => fieldMatches f v e
  | .andF l r, e => Matches l e && Matches r e
  | .orF l r, e => Matches l e || Matches r e
  | .notF c, e => !(Matches c e)

/-- Evaluator `fieldFilter.Matches` of the earlier filter revision, which stores
the raw field keyword and guards port comparisons with `> 0`. -/
def fieldFilterMatchesA (field value : String) (e : LogEntry) : Bool :=
  match field with
  | "action" => hasPrefixCI e.action value
  | "dir" | "direction" => hasPrefixCI e.direction value
  | "dst" | "dest" | "destination" => hasPrefixCI e.dst value
  | "iface" | "interface" => hasPrefixCI e.interface value
  | "ip" | "ipver" | "ipversion" => Nat.repr e.ipVersion == value
  | "port" =>
    (decide (0 < e.srcPort) && (Nat.repr e.srcPort == value)) ||
      (decide (0 < e.dstPort) && (Nat.repr e.dstPort == value))
  | "sport" | "srcport" => decide (0 < e.srcPort) && (Nat.repr e.srcPort == value)
  | "dport" | "dstport" => decide (0 < e.dstPort) && (Nat.repr e.dstPort == value)
  | "proto" | "protocol" => hasPrefixCI e.protoName value
  | "reason" => hasPrefixCI e.reason value
  | "src" | "source" => hasPrefixCI e.src value
  | _ => false

/-- Evaluator `anyFilter.Matches` of the earlier filter revision: the seven string
fields, in source order, with no timestamp. -/
def anyFilterMatchesA (value : String) (e : LogEntry) : Bool :=
  containsCI e.action value ||
    containsCI e.src value ||
    containsCI e.dst value ||
    containsCI e.interface value ||
    containsCI e.protoName value ||
    containsCI e.reason value ||
    containsCI e.direction value

/-- The parser state (`filter.parser`): the pre-loaded current token and
the unconsumed remainder of the lexer input. -/
structure PState where
  cur : Token
  rest : List Char
  deriving Repr

/-- Cursor step `parser.advance`. -/
def pAdvance (st : PState) : PState :=
  match nextToken st.rest with
  | (t, r) => ⟨t, r⟩

mutual

/-- Production `parser.parseOr`: a left-associative chain of `and`-expressions. -/
def parseOr : Nat → PState → Except String (FilterNode × PState)
  | 0, _ => .error "error(filter): expression too deeply nested"
  | fuel + 1, st =>
    match parseAnd fuel st with
    | .error e => .error e
    | .ok (left, st) => parseOrLoop fuel left st

/-- The `for p.current.typ == tokenOr` loop of `parseOr`. -/
def parseOrLoop : Nat → FilterNode → PState → Except String (FilterNode × PState)
  | 0, _, _ => .error "error(filter): expression too deeply nested"
  | fuel + 1, left, st =>
    if st.cur.typ == .or then
      match parseAnd fuel (pAdvance st) with
      | .error e => .error e
      | .ok (right, st) => parseOrLoop fuel (.orF left right) st
    else .ok (left, st)

/-- Production `parser.parseAnd`: a left-associative chain of `not`-expressions. -/
def parseAnd : Nat → PState → Except String (FilterNode × PState)
  | 0, _ => .error "error(filter): expression too deeply nested"
  | fuel + 1, st =>
    match parseNot fuel st with
    | .error e => .error e
    | .ok (left, st) => parseAndLoop fuel left st

/-- The `for p.current.typ == tokenAnd` loop of `parseAnd`. -/
def parseAndLoop : Nat → FilterNode → PState → Except String (FilterNode × PState)
  | 0, _, _ => .error "error(filter): expression too deeply nested"
  | fuel + 1, left, st =>
    if st.cur.typ == .and then
      match parseNot fuel (pAdvance st) with
      | .error e => .error e
      | .ok (right, st) => parseAndLoop fuel (.andF left right) st
    else .ok (left, st)

/-- Production `parser.parseNot`. -/
def parseNot : Nat → PState → Except String (FilterNode × PState)
  | 0, _ => .error "error(filter): expression too deeply nested"
  | fuel + 1, st =>
    if st.cur.typ == .not then
      match parsePrimary fuel (pAdvance st) with
      | .error e => .error e
      | .ok (child, st) => .ok (.notF child, st)
    else parsePrimary fuel st

/-- Production `parser.parsePrimary`: a parenthesised group, a field filter, or a
bare value. -/
def parsePrimary : Nat → PState → Except String (FilterNode × PState)
  | 0, _ => .error "error(filter): expression too deeply nested"
  | fuel + 1, st =>
    if st.cur.typ == .parenL then
      match parseOr fuel (pAdvance st) with
      | .error e => .error e
      | .ok (node, st) =>
        if st.cur.typ != .parenR then
          .error ("error(filter): expected closing parenthesis but got " ++ st.cur.value)
        else .ok (node, pAdvance st)
    else if st.cur.typ == .field then
      let field := st.cur.value
      let st := pAdvance st
      if st.cur.typ != .value then
        .error ("error(filter): expected value after field " ++ field ++ " but got " ++ st.cur.value)
      else
        match fieldsMap field with
        | some f => .ok (.fieldF f st.cur.value, pAdvance st)
        | none => .error "error(filter): unknown field"
    else if st.cur.typ == .value then
      .ok (.anyF st.cur.value, pAdvance st)
    else
      .error ("error(filter): unexpected token " ++ st.cur.value)

end

/-- Entry point `parser.parse`: empty input (first token already EOF) compiles to no
filter; trailing tokens after the parsed expression are not inspected,
as in the source. -/
def parserParse (fuel : Nat) (st : PState) : Except String (Option FilterNode) :=
  if st.cur.typ == .eof then .ok none
  else
    match parseOr fuel st with
    | .error e => .error e
    | .ok (node, _) => .ok (some node)

/-- Public `filter.Compile`: the empty expression short-circuits to no filter;
otherwise the expression is trimmed, lexed and parsed.  The fuel passed
to the parser strictly dominates the possible recursion depth. -/
def Compile (expression : String) : Except String (Option FilterNode) :=
  if expression = "" then .ok none
  else
    let input := trimSpace expression.data
    let st : PState :=
      match nextToken input with
      | (t, r) => ⟨t, r⟩
    parserParse (4 * input.length + 16) st

/-- Discriminates a failed compile. -/
def isCompileErr (r : Except String (Option FilterNode)) : Bool :=
  match r with
  | .error _ => true
  | .ok _ => false

/-- Modelled from the spec: the fixed seven-field set the specification
names for a bare-value (any-field) match — action, direction, interface,
reason, destination address, protocol, source address — under
case-insensitive substring comparison.  Used as the reference point the
evaluator is compared against. -/
def anyFieldMatchSpec (e : LogEntry) (v : String) : Bool :=
  containsCI e.action v ||
    containsCI e.direction v ||
    containsCI e.interface v ||
    containsCI e.reason v ||
    containsCI e.dst v ||
    containsCI e.protoName v ||
    containsCI e.src v

deriving instance DecidableEq for Except

/-! ## Concrete fixtures

Log lines in the input format of §4.1/§6 of the specification: a token,
an RFC 3339 timestamp, a token ending in the `"] "` delimiter, then the
comma-separated record. -/

/-- A valid IPv4 TCP record (ports 80 → 443). -/
def lineValid4 : String :=
  "x 2025-01-02T03:04:05Z h] f0,f1,f2,lbl,igb0,match,block,in,4,9,10,11,12,13,14,15,tcp,17,1.2.3.4,5.6.7.8,80,443"

/-- A valid IPv4 UDP record (ports 53 → 5353). -/
def lineValid4b : String :=
  "x 2025-01-02T03:04:06Z h] f0,f1,f2,lbl,igb1,match,pass,out,4,9,10,11,12,13,14,15,udp,17,9.9.9.9,8.8.8.8,53,5353"

/-- A valid IPv6 TCP record. -/
def lineValid6 : String :=
  "x 2025-01-02T03:04:07Z h] f0,f1,f2,lbl,igb0,match,pass,in,6,9,10,11,tcp,13,14,aaaa::1,bbbb::2,443,8080"

/-- No space at all: the timestamp extraction fails. -/
def lineGarbage : String := "garbage"

/-- A word where the timestamp should be: `time.Parse` fails. -/
def lineBadTs : String :=
  "x notatime h] f0,f1,f2,lbl,igb0,match,block,in,4"

/-- A valid timestamp but a CSV payload too short for the required
fields: the interface field (index 4) is missing. -/
def lineMissingField : String :=
  "x 2025-01-02T03:04:05Z h] a,b,c"

/-- A non-numeric source port on an IPv4 TCP record. -/
def lineBadPort : String :=
  "x 2025-01-02T03:04:05Z h] f0,f1,f2,lbl,igb0,match,block,in,4,9,10,11,12,13,14,15,tcp,17,1.2.3.4,5.6.7.8,x80,443"

/-- A non-numeric IP version field. -/
def lineBadIPVer : String :=
  "x 2025-01-02T03:04:05Z h] f0,f1,f2,lbl,igb0,match,block,in,abc"

/-- A mixed fixture file: 3 valid records among 5 physical lines. -/
def fileA : List String :=
  [lineGarbage, lineValid4, lineBadTs, lineValid6, lineValid4b]

/-- A record whose ports are both 0 (a non-tcp/udp protocol). -/
def entryZeroPort : LogEntry :=
  { action := "block", direction := "in", interface := "igb0", label := "lbl"
    reason := "match", time := "2025-01-02T03:04:05Z", dst := "5.6.7.8"
    ipVersion := 4, protoName := "icmp", src := "1.2.3.4"
    dstPort := 0, srcPort := 0 }

/-- A record that is blank except for its timestamp text. -/
def entryTimeOnly : LogEntry :=
  { action := "", direction := "", interface := "", label := ""
    reason := "", time := "2025-01-02T03:04:05Z", dst := ""
    ipVersion := 4, protoName := "", src := ""
    dstPort := 0, srcPort := 0 }
/-! ## Stream lemmas -/

theorem lineSize_pos (l : String) : 1 ≤ lineSize l := by
  simp [lineSize]

/-- Repeated `next` from a cursor is step-wise consistent with
`nextAll`: the first `next` yields the head of `nextAll` and the
remaining calls continue from the advanced cursor. -/
theorem nextAll_eq_next (lines : List String) :
    nextAll lines =
      (match next lines with
       | none => []
       | some (e, rest) => e :: nextAll rest) := by
  induction lines with
  | nil => rfl
  | cons l ls ih => cases hp : parseEntry l <;> simp [nextAll, next, hp, ih]

theorem buildIndexFrom_length (ls : List String) :
    ∀ off v, (buildIndexFrom ls off v).length = (nextAll ls).length := by
  induction ls with
  | nil => intro off v; rfl
  | cons l ls ih =>
    intro off v
    cases hp : parseEntry l <;> simp [buildIndexFrom, nextAll, hp, ih]

theorem buildIndex_length (lines : List String) :
    (buildIndex lines).length = (nextAll lines).length :=
  buildIndexFrom_length lines 0 0

theorem dropAtOffset_add (l : String) (ls : List String) (m : Nat) :
    dropAtOffset (l :: ls) (m + lineSize l) = dropAtOffset ls m := by
  have h1 : m + lineSize l = (m + l.utf8ByteSize) + 1 := by
    simp [lineSize]
    omega
  rw [h1]
  show (if lineSize l ≤ m + l.utf8ByteSize + 1 then
      dropAtOffset ls (m + l.utf8ByteSize + 1 - lineSize l) else none) = dropAtOffset ls m
  rw [if_pos (by simp [lineSize])]
  congr 1
  simp [lineSize]

/-- Offsets recorded by the index loop never fall below the running
offset at which the loop starts. -/
theorem buildIndexFrom_offset_ge (ls : List String) :
    ∀ off v entry, entry ∈ buildIndexFrom ls off v → off ≤ entry.offset := by
  induction ls with
  | nil => intro off v entry h; simp [buildIndexFrom] at h
  | cons l ls ih =>
    intro off v entry h
    cases hp : parseEntry l with
    | some e =>
      simp only [buildIndexFrom, hp] at h
      rw [List.mem_cons] at h
      rcases h with h | h
      · simp [h]
      · have := ih (off + lineSize l) (v + 1) entry h
        omega
    | none =>
      simp only [buildIndexFrom, hp] at h
      have := ih (off + lineSize l) v entry h
      omega

/-- The offsets of the index strictly increase along the list. -/
theorem buildIndexFrom_pairwise (ls : List String) :
    ∀ off v, (buildIndexFrom ls off v).Pairwise (fun a b => a.offset < b.offset) := by
  induction ls with
  | nil => intro off v; simp [buildIndexFrom]
  | cons l ls ih =>
    intro off v
    cases hp : parseEntry l with
    | some e =>
      simp only [buildIndexFrom, hp]
      refine List.Pairwise.cons ?_ (ih (off + lineSize l) (v + 1))
      intro b hb
      have h1 := buildIndexFrom_offset_ge ls (off + lineSize l) (v + 1) b hb
      have h2 := lineSize_pos l
      simp only
      omega
    | none =>
      simp only [buildIndexFrom, hp]
      exact ih (off + lineSize l) v

/-- Core seek/iteration consistency, generalised over the running state
of the index loop: an index entry found at position `n` carries ordinal
`v + n` and a byte offset which, relative to the loop's base offset, is a
line boundary; repositioning there and scanning yields exactly the `n`-th
record of sequential iteration over the same lines. -/
theorem buildIndexFrom_seek (ls : List String) :
    ∀ off v n entry, (buildIndexFrom ls off v)[n]? = some entry →
      off ≤ entry.offset ∧ entry.line = v + n ∧
      ∃ tail e rest, dropAtOffset ls (entry.offset - off) = some tail ∧
        (nextAll ls)[n]? = some e ∧ next tail = some (e, rest) := by
  induction ls with
  | nil => intro off v n entry h; simp [buildIndexFrom] at h
  | cons l ls ih =>
    intro off v n entry h
    cases hp : parseEntry l with
    | some e0 =>
      simp only [buildIndexFrom, hp] at h
      cases n with
      | zero =>
        simp only [List.getElem?_cons_zero, Option.some.injEq] at h
        subst h
        refine ⟨Nat.le_refl _, by simp, l :: ls, e0, ls, ?_, ?_, ?_⟩
        · simp [dropAtOffset]
        · simp [nextAll, hp]
        · simp [next, hp]
      | succ n =>
        simp only [List.getElem?_cons_succ] at h
        obtain ⟨hge, hline, tail, e, rest, hdrop, hget, hnext⟩ :=
          ih (off + lineSize l) (v + 1) n entry h
        refine ⟨by omega, by omega, tail, e, rest, ?_, ?_, hnext⟩
        · have hs : entry.offset - off = (entry.offset - (off + lineSize l)) + lineSize l := by
            omega
          rw [hs, dropAtOffset_add]
          exact hdrop
        · simp [nextAll, hp, hget]
    | none =>
      simp only [buildIndexFrom, hp] at h
      obtain ⟨hge, hline, tail, e, rest, hdrop, hget, hnext⟩ :=
        ih (off + lineSize l) v n entry h
      refine ⟨by omega, hline, tail, e, rest, ?_, ?_, hnext⟩
      · have hs : entry.offset - off = (entry.offset - (off + lineSize l)) + lineSize l := by
          omega
        rw [hs, dropAtOffset_add]
        exact hdrop
      · simp [nextAll, hp, hget]

/-- The bounded diagnostic collection, fed any message sequence from any
admissible start state, retains the start state followed by exactly the
messages that fit under the cap, in order. -/
theorem addError_foldl (msgs : List String) :
    ∀ init : List String, init.length ≤ MaxErrorsInMemory →
      msgs.foldl addError init = init ++ msgs.take (MaxErrorsInMemory - init.length) := by
  induction msgs with
  | nil => intro init h; simp
  | cons m rest ih =>
    intro init h
    by_cases hlt : init.length < MaxErrorsInMemory
    · rw [List.foldl_cons]
      have ha : addError init m = init ++ [m] := by simp [addError, hlt]
      rw [ha, ih _ (by simp; omega)]
      have hk : MaxErrorsInMemory - init.length = (MaxErrorsInMemory - (init.length + 1)) + 1 := by
        omega
      rw [hk, List.take_succ_cons]
      simp
    · have ha : addError init m = init := by simp [addError, hlt]
      rw [List.foldl_cons, ha, ih _ h]
      have hz : MaxErrorsInMemory - init.length = 0 := by omega
      simp [hz]

/-- Trimming a string of spaces leaves nothing. -/
theorem trimSpace_all_space (cs : List Char) (h : cs.all (· == ' ') = true) :
    trimSpace cs = [] := by
  have hd : cs.dropWhile Char.isWhitespace = [] := by
    rw [List.dropWhile_eq_nil_iff]
    intro x hx
    have := List.all_eq_true.mp h x hx
    have hx' : x = ' ' := by simpa using this
    simp [hx']
  simp [trimSpace, hd]

/-! ## The claims -/

/-- C5.  The diagnostic collection is a hard ceiling, not a ring buffer:
whatever sequence of messages `addError` is fed — in particular the
diagnostics of a full indexing or on-demand scan — the stored collection
never exceeds `MaxErrorsInMemory` (1000), and it consists of exactly the
first 1000 messages, in order, so no earlier diagnostic is evicted or
replaced. -/
theorem addError_cap_retention :
    (∀ msgs : List String, (msgs.foldl addError []).length ≤ MaxErrorsInMemory) ∧
    (∀ msgs : List String, msgs.foldl addError [] = msgs.take MaxErrorsInMemory) ∧
    (∀ (lines : List String) (n : Nat),
      (scanMsgs lines n).foldl addError [] = (scanMsgs lines n).take MaxErrorsInMemory) := by
  have key : ∀ msgs : List String, msgs.foldl addError [] = msgs.take MaxErrorsInMemory := by
    intro msgs
    simpa using addError_foldl msgs [] (by simp)
  refine ⟨?_, key, fun lines n => key _⟩
  intro msgs
  rw [key, List.length_take]
  exact min_le_left _ _

/-- C7.  After every index build, the number of index entries equals the
number of records sequential iteration produces, and byte offsets
strictly increase with the ordinal. -/
theorem buildIndex_invariants (lines : List String) :
    (buildIndex lines).length = (nextAll lines).length ∧
    ∀ (i j : Nat) (hi : i < (buildIndex lines).length) (hj : j < (buildIndex lines).length),
      i < j →
        ((buildIndex lines).get ⟨i, hi⟩).offset < ((buildIndex lines).get ⟨j, hj⟩).offset := by
  refine ⟨buildIndex_length lines, ?_⟩
  intro i j hi hj hij
  exact List.pairwise_iff_get.mp (buildIndexFrom_pairwise lines 0 0) ⟨i, hi⟩ ⟨j, hj⟩ hij

/-- Witness for C7 on the mixed fixture file. -/
theorem buildIndex_invariants_witness :
    (buildIndex fileA).length = (nextAll fileA).length ∧
    ((buildIndex fileA).get ⟨0, by decide⟩).offset <
      ((buildIndex fileA).get ⟨1, by decide⟩).offset :=
  ⟨(buildIndex_invariants fileA).1,
    (buildIndex_invariants fileA).2 0 1 (by decide) (by decide) (by decide)⟩

/-- C1.  For every file and every valid ordinal `n`, seeking to the byte
offset the index stores for ordinal `n` lands on a line boundary, and one
`next` from there returns exactly the `n`-th record of pure sequential
iteration from the start of a fresh stream over the same file. -/
theorem seekToLine_next_consistent (lines : List String) (n : Nat)
    (h : n < (buildIndex lines).length) :
    ∃ tail e rest, seekToLine lines n = some tail ∧
      (nextAll lines)[n]? = some e ∧ next tail = some (e, rest) := by
  have hget : (buildIndex lines)[n]? = some ((buildIndex lines).get ⟨n, h⟩) := by
    simp [List.getElem?_eq_getElem h]
  obtain ⟨-, -, tail, e, rest, hdrop, hall, hnext⟩ :=
    buildIndexFrom_seek lines 0 0 n _ hget
  refine ⟨tail, e, rest, ?_, hall, hnext⟩
  simp only [seekToLine]
  rw [if_neg (by omega), if_neg (by omega), hget]
  simpa using hdrop

/-- Witness for C1: ordinal 2 of the mixed fixture file. -/
theorem seekToLine_next_consistent_witness :
    ∃ tail e rest, seekToLine fileA 2 = some tail ∧
      (nextAll fileA)[2]? = some e ∧ next tail = some (e, rest) :=
  seekToLine_next_consistent fileA 2 (by decide)

/-- C2 (amended).  `TotalLines` is `-1` on a fresh stream; after a
successful index build it equals the count of records produced by
sequential iteration whenever that count is positive; for a file with
zero valid records the empty index makes it return `-1` again rather
than 0. -/
theorem totalLines_after_buildIndex :
    TotalLines [] 0 = -1 ∧
    (∀ lines : List String, 0 < (nextAll lines).length →
      TotalLines (buildIndex lines) (buildIndex lines).length =
        ((nextAll lines).length : Int)) ∧
    (∀ lines : List String, (nextAll lines).length = 0 →
      TotalLines (buildIndex lines) (buildIndex lines).length = -1) := by
  refine ⟨rfl, ?_, ?_⟩
  · intro lines h
    have hl := buildIndex_length lines
    simp [TotalLines, hl, h]
  · intro lines h
    have hl := buildIndex_length lines
    simp [TotalLines, hl, h]

/-- Witness for C2 (amended) on the mixed fixture file (3 records). -/
theorem totalLines_after_buildIndex_witness :
    0 < (nextAll fileA).length ∧
    TotalLines (buildIndex fileA) (buildIndex fileA).length = ((nextAll fileA).length : Int) :=
  ⟨by decide, totalLines_after_buildIndex.2.1 fileA (by decide)⟩

/-- Counterexample to C2 as stated: on a file whose only line is
malformed, `BuildIndex` succeeds with an empty index, sequential
iteration produces 0 records, yet `TotalLines` reports `-1`, not 0. -/
theorem totalLines_zero_records_cex :
    TotalLines (buildIndex [lineGarbage]) (buildIndex [lineGarbage]).length ≠
      ((nextAll [lineGarbage]).length : Int) := by
  decide

/-- C9.  Parsing is total and never aborts a scan: every line either
parses to a record with no diagnostic or fails with exactly one
diagnostic message; `next` then advances past a failed line; and the
cited failure classes — unparsable timestamp, missing required field,
non-numeric port, non-numeric ip-version — all take the diagnostic
branch. -/
theorem parse_total_nonfatal :
    (∀ (line : String) (n : Nat),
      (∃ e, parseLine line n = (some e, none)) ∨
        (∃ m, parseLine line n = (none, some m))) ∧
    (∀ (l : String) (ls : List String), parseEntry l = none → next (l :: ls) = next ls) ∧
    (∀ (l : String) (ls : List String), parseEntry l = none → nextAll (l :: ls) = nextAll ls) ∧
    parseEntry lineBadTs = none ∧
    parseEntry lineMissingField = none ∧
    parseEntry lineBadPort = none ∧
    parseEntry lineBadIPVer = none := by
  refine ⟨?_, ?_, ?_, by decide, by decide, by decide, by decide⟩
  · intro line n
    cases h : parseLineE line with
    | ok e => exact .inl ⟨e, by simp [parseLine, h]⟩
    | error t => exact .inr ⟨diagMsg t n, by simp [parseLine, h]⟩
  · intro l ls h
    simp [next, h]
  · intro l ls h
    simp [nextAll, h]

/-- Witness for C9: `next` skips the bad-timestamp line. -/
theorem parse_total_nonfatal_witness :
    parseEntry lineBadTs = none ∧ next [lineBadTs, lineValid4] = next [lineValid4] :=
  ⟨by decide, parse_total_nonfatal.2.1 lineBadTs [lineValid4] (by decide)⟩

/-- Counterexample to C3 as stated: in the current evaluator a port
equal to 0 *does* match the value string "0", both through the
field-qualified port filters and through the composite `port` field. -/
theorem port_zero_matches_cex :
    entryZeroPort.srcPort = 0 ∧
    Matches (.fieldF .srcPort "0") entryZeroPort = true ∧
    Matches (.fieldF .dstPort "0") entryZeroPort = true ∧
    Matches (.fieldF .port "0") entryZeroPort = true := by
  decide

/-- C3 (amended).  In the current evaluator, a field-qualified match on
`srcport`/`dstport` holds iff the decimal rendering of that port equals
the value string — with no zero guard, so port 0 matches "0" — and the
composite `port` field matches iff either rendering equals the value.
The zero-never-matches rule of the claim holds only in the earlier
revision of `fieldFilter.Matches`, which guards each comparison with
`port > 0`. -/
theorem port_match_semantics :
    (∀ (e : LogEntry) (v : String),
      Matches (.fieldF .srcPort v) e = (Nat.repr e.srcPort == v) ∧
      Matches (.fieldF .dstPort v) e = (Nat.repr e.dstPort == v) ∧
      Matches (.fieldF .port v) e =
        ((Nat.repr e.srcPort == v) || (Nat.repr e.dstPort == v))) ∧
    (∀ (e : LogEntry) (v : String),
      fieldFilterMatchesA "srcport" v e =
        (decide (0 < e.srcPort) && (Nat.repr e.srcPort == v)) ∧
      fieldFilterMatchesA "dstport" v e =
        (decide (0 < e.dstPort) && (Nat.repr e.dstPort == v)) ∧
      fieldFilterMatchesA "port" v e =
        ((decide (0 < e.srcPort) && (Nat.repr e.srcPort == v)) ||
          (decide (0 < e.dstPort) && (Nat.repr e.dstPort == v)))) := by
  constructor <;> intro e v <;> exact ⟨rfl, rfl, rfl⟩

/-- Counterexample to C4 as stated: a bare value occurring only in the
record's timestamp text is matched by the current any-field evaluator,
although it occurs in none of the seven fields the claim fixes. -/
theorem anyFieldMatch_timestamp_cex :
    Matches (.anyF "2025") entryTimeOnly = true ∧
    anyFieldMatchSpec entryTimeOnly "2025" = false := by
  decide

/-- C4 (amended).  The current any-field evaluator performs the claimed
case-insensitive substring comparison, but over the claimed seven-field
set *plus the timestamp string*; the exact seven-field set (no
timestamp, no ip-version, no ports) is the behaviour of the earlier
revision of `anyFilter.Matches`. -/
theorem anyFieldMatch_semantics :
    (∀ (e : LogEntry) (v : String),
      Matches (.anyF v) e = (anyFieldMatchSpec e v || containsCI e.time v)) ∧
    (∀ (e : LogEntry) (v : String), anyFilterMatchesA v e = anyFieldMatchSpec e v) := by
  constructor <;> intro e v
  · simp only [Matches, searchFields, anyFieldMatchSpec, List.any_cons, List.any_nil,
      Bool.or_false]
    rw [Bool.eq_iff_iff]
    simp only [Bool.or_eq_true]
    tauto
  · simp only [anyFilterMatchesA, anyFieldMatchSpec]
    rw [Bool.eq_iff_iff]
    simp only [Bool.or_eq_true]
    tauto

/-- C6.  The filter grammar is left-associative with precedence
NOT > AND > OR: the cited expression compiles to the left-grouped AST
`(src ∧ proto tcp) ∨ proto udp`, whose evaluation on every record is the
corresponding boolean combination of case-insensitive prefix matches. -/
theorem filter_precedence_left_assoc :
    Compile "src 192.168 and proto tcp or proto udp" =
      .ok (some (.orF (.andF (.fieldF .source "192.168") (.fieldF .protocol "tcp"))
        (.fieldF .protocol "udp"))) ∧
    ∀ e : LogEntry,
      Matches (.orF (.andF (.fieldF .source "192.168") (.fieldF .protocol "tcp"))
        (.fieldF .protocol "udp")) e =
      ((matchStr e.src "192.168" && matchStr e.protoName "tcp") ||
        matchStr e.protoName "udp") :=
  ⟨by decide, fun _ => rfl⟩

/-- C8.  The empty expression compiles to no filter with no error, and
each cited malformed shape is rejected: a dangling operator after a
field keyword ("src and"), a bare operator as an unexpected token, an
unmatched parenthesis, and an empty group. -/
theorem compile_empty_and_errors :
    Compile "" = .ok none ∧
    isCompileErr (Compile "src and") = true ∧
    isCompileErr (Compile "and") = true ∧
    isCompileErr (Compile "(src 192.168") = true ∧
    isCompileErr (Compile "()") = true := by
  decide

/-- C10.  A non-empty expression consisting only of spaces trims to
nothing, so its first token is already EOF and `Compile` returns the
same "no filter" result as the empty string: a nil node and a nil
error. -/
theorem compile_spaces_only (s : String) (h1 : s ≠ "")
    (h2 : s.data.all (· == ' ') = true) :
    Compile s = .ok none := by
  simp only [Compile]
  rw [if_neg h1]
  simp [trimSpace_all_space s.data h2, nextToken, parserParse]

/-- Witness for C10 at the three-space expression. -/
theorem compile_spaces_only_witness :
    "   " ≠ "" ∧ Compile "   " = .ok none :=
  ⟨by decide, compile_spaces_only "   " (by decide) (by decide)⟩
